import Mathlib

/-!
Verification development for the course-activity-planner core
(`src/python/moodle.py`): a shallow embedding of the Moodle event /
course model and proofs about its specified behaviour.

Modelling conventions:
* Python values stored in XML text nodes are modelled by `PyVal`
  (None, str, int) — `MoodleEvent._write_calendar` assigns the Python
  integer `0` to a text node, so text nodes are not always strings.
* Python exceptions are modelled by `PyError`.  The spec's abstract
  error kinds map to the concrete exceptions the code raises:
  `StructuralError` = `exception "An activity can only have one event."`
  or `exception "Unimplemented"`, `FieldNotFoundError` =
  `attributeError` (from `None.text` after a failed `find`),
  `ImmutableFieldError` = `exception "Not allowed"`,
  `OutOfRangeError` = `indexError`, `SequenceInconsistencyError` =
  `valueError` (from `list.index`).
* `xml.etree.ElementTree` elements are modelled by `Element`; the
  serializer below follows CPython 3's `_serialize_xml` with
  `short_empty_elements=False`, `encoding='UTF-8'`,
  `xml_declaration=True` exactly: an element's text is written only if
  it is truthy (so the Python int `0` is silently skipped), and a
  truthy non-string text raises `TypeError`.
-/

namespace Moodle

/-- Python value that can sit in an XML text slot. -/
inductive PyVal where
  | none
  | str (s : String)
  | int (n : Int)
deriving DecidableEq, Repr, Inhabited

/-- Python exception, as raised by the code under analysis. -/
inductive PyError where
  | exception (msg : String)
  | attributeError
  | keyError (k : String)
  | valueError (msg : String)
  | indexError
  | typeError (msg : String)
deriving DecidableEq, Repr

/-- Model of `xml.etree.ElementTree.Element`: tag, attributes (in
document/insertion order), text, child elements, tail text. -/
inductive Element where
  | mk (tag : String) (attrib : List (String × String)) (text : PyVal)
       (children : List Element) (tail : PyVal)
deriving Inhabited

def Element.tag : Element → String
  | .mk t _ _ _ _ => t

def Element.attrib : Element → List (String × String)
  | .mk _ a _ _ _ => a

def Element.text : Element → PyVal
  | .mk _ _ x _ _ => x

def Element.children : Element → List Element
  | .mk _ _ _ c _ => c

def Element.tail : Element → PyVal
  | .mk _ _ _ _ t => t

def Element.withText (e : Element) (v : PyVal) : Element :=
  .mk e.tag e.attrib v e.children e.tail

def Element.withChildren (e : Element) (cs : List Element) : Element :=
  .mk e.tag e.attrib e.text cs e.tail

/-- Python `element.find(tag)`: first child with the given tag, `None`
when there is none. -/
def findChild (e : Element) (k : String) : Option Element :=
  e.children.find? (fun c => c.tag == k)

/-- Replace the text of the first child carrying the given tag
(`element.find(tag).text = v` after a successful `find`). -/
def setTextOfChild : List Element → String → PyVal → List Element
  | [], _, _ => []
  | c :: cs, k, v =>
    if c.tag = k then c.withText v :: cs else c :: setTextOfChild cs k v

/-- Python attribute-dict lookup (`e.attrib[k]`). -/
def lookupAttr (a : List (String × String)) (k : String) : Option String :=
  (a.find? (fun p => p.1 == k)).map (fun p => p.2)

/-! ### Decimal text: `str(int)` and numeric parsing -/

/-- Decimal digit character for a digit value below ten. -/
def digitChar : Nat → Char
  | 0 => '0' | 1 => '1' | 2 => '2' | 3 => '3' | 4 => '4'
  | 5 => '5' | 6 => '6' | 7 => '7' | 8 => '8' | _ => '9'

/-- Value of a decimal digit character, `Option.none` otherwise. -/
def digitVal? (c : Char) : Option Nat :=
  if 48 ≤ c.toNat ∧ c.toNat ≤ 57 then some (c.toNat - 48) else Option.none

/-- Little-endian base-10 digits, computed with a structural fuel so
that concrete inputs evaluate inside the kernel. -/
def natDigitsAux : Nat → Nat → List Nat
  | _, 0 => []
  | 0, _ => []
  | f + 1, n + 1 => ((n + 1) % 10) :: natDigitsAux f ((n + 1) / 10)

/-- Python `str(n)` for a natural number. -/
def natToDec (n : Nat) : String :=
  if n = 0 then "0" else String.mk (((natDigitsAux n n).map digitChar).reverse)

/-- Big-endian decimal accumulator parse; `Option.none` on any
non-digit character. -/
def parseNatAux : List Char → Nat → Option Nat
  | [], acc => some acc
  | c :: cs, acc =>
    match digitVal? c with
    | some d => parseNatAux cs (10 * acc + d)
    | Option.none => Option.none

/-- Parse a non-empty all-digit string as a natural number. -/
def pyParseNat (s : String) : Option Nat :=
  if s.data = [] then Option.none else parseNatAux s.data 0

/-- Python `str(i)` for an integer. -/
def pyStrInt (i : Int) : String :=
  if i < 0 then "-" ++ natToDec i.natAbs else natToDec i.toNat

/-- Parse an optionally-sign-prefixed decimal integer. -/
def pyParseInt (s : String) : Option Int :=
  if s.data = [] then Option.none
  else if s.data.headD ' ' = '-' then
    if s.data.tail = [] then Option.none
    else (parseNatAux s.data.tail 0).map (fun n : Nat => -(n : Int))
  else (parseNatAux s.data 0).map (fun n : Nat => (n : Int))

/-! ### The XML serializer (`ElementTree.write`, CPython 3) -/

/-- Python truthiness of a text slot (`if text:`). -/
def pyTruthy : PyVal → Bool
  | .none => false
  | .str s => !s.isEmpty
  | .int n => n != 0

/-- Character-wise `xml.etree.ElementTree._escape_cdata`. -/
def escapeCdataChars : List Char → List Char
  | [] => []
  | c :: cs =>
    (if c = '&' then "&amp;".data
     else if c = '<' then "&lt;".data
     else if c = '>' then "&gt;".data
     else [c]) ++ escapeCdataChars cs

def escapeCdata (s : String) : String := String.mk (escapeCdataChars s.data)

/-- Character-wise `xml.etree.ElementTree._escape_attrib`. -/
def escapeAttribChars : List Char → List Char
  | [] => []
  | c :: cs =>
    (if c = '&' then "&amp;".data
     else if c = '<' then "&lt;".data
     else if c = '>' then "&gt;".data
     else if c = '"' then "&quot;".data
     else if c = '\r' then "&#13;".data
     else if c = '\n' then "&#10;".data
     else if c = '\t' then "&#09;".data
     else [c]) ++ escapeAttribChars cs

def escapeAttrib (s : String) : String := String.mk (escapeAttribChars s.data)

/-- Serialize a truthy text slot; a truthy non-string raises
`TypeError` (`cannot serialize ... `), falsy text writes nothing. -/
def serializeText (v : PyVal) : String × Option PyError :=
  if pyTruthy v then
    match v with
    | .str s => (escapeCdata s, Option.none)
    | _ => ("", some (PyError.typeError "cannot serialize non-string text"))
  else ("", Option.none)

def serializeAttrs (a : List (String × String)) : String :=
  String.join (a.map (fun p => " " ++ p.1 ++ "=\"" ++ escapeAttrib p.2 ++ "\""))

mutual
/-- `_serialize_xml` with `short_empty_elements=False`.  Returns the
bytes written so far together with the error that interrupted
serialization, if any (the file write is streaming, so a crash leaves
the written prefix on disk). -/
def serializeElem : Element → String × Option PyError
  | .mk tag attrib text children tail =>
    let head := "<" ++ tag ++ serializeAttrs attrib ++ ">"
    match serializeText text with
    | (_, some e) => (head, some e)
    | (t, Option.none) =>
      match serializeChildren children with
      | (body, some e) => (head ++ t ++ body, some e)
      | (body, Option.none) =>
        let closed := head ++ t ++ body ++ "</" ++ tag ++ ">"
        match serializeText tail with
        | (_, some e) => (closed, some e)
        | (tl, Option.none) => (closed ++ tl, Option.none)

def serializeChildren : List Element → String × Option PyError
  | [] => ("", Option.none)
  | c :: cs =>
    match serializeElem c with
    | (s, some e) => (s, some e)
    | (s, Option.none) =>
      match serializeChildren cs with
      | (s2, e2) => (s ++ s2, e2)
end

/-- `ElementTree.write(path, short_empty_elements=False,
encoding='UTF-8', xml_declaration=True)`: declaration line followed by
the root element. -/
def serializeFile (root : Element) : String × Option PyError :=
  match serializeElem root with
  | (s, e) => ("<?xml version='1.0' encoding='UTF-8'?>\n" ++ s, e)

/-! ### The timestamp codec (the `arrow` library calls)

The code stores UTC epoch seconds as decimal text
(`str(arrow.get(dt).to('utc').timestamp)`) and reads them back with
`arrow.get(epoch_text, tzinfo=tz.gettz('America/Montreal'))`.  An
arrow time is an instant together with the zone it is presented in;
`arrow.get` of a decimal string parses it as a Unix timestamp (the
instant is the parsed number), `.to(zone)` re-presents the same
instant, and `.timestamp` returns the instant. -/

structure ArrowTime where
  instant : Int
  zone : String
deriving DecidableEq, Repr

def montreal : String := "America/Montreal"

/-- `arrow.get(epoch_text, tzinfo=z)` on a stored text node: decimal
text parses as a Unix timestamp presented in zone `z`; `None` or
non-numeric text raises (arrow's `ParserError`, a `ValueError`). -/
def arrowGetEpoch (v : PyVal) (z : String) : Except PyError ArrowTime :=
  match v with
  | .str s =>
    match pyParseInt s with
    | some n => .ok ⟨n, z⟩
    | Option.none => .error (.valueError "ParserError")
  | _ => .error (.valueError "ParserError")

/-- `arrow_time.to(zone)`: same instant, new presentation zone. -/
def arrowTo (a : ArrowTime) (z : String) : ArrowTime := ⟨a.instant, z⟩

/-- `arrow_time.timestamp`: the Unix epoch seconds of the instant. -/
def ArrowTime.timestamp (a : ArrowTime) : Int := a.instant

/-- Spec §4.1 `to_display`: encode an epoch integer to its stored
decimal text and resolve it through the fixed civil timezone, as
`MoodleEvent._get_arrow` does. -/
def toDisplay (e : Int) : Except PyError ArrowTime :=
  arrowGetEpoch (.str (pyStrInt e)) montreal

/-- Spec §4.1 `parse_display`: `arrow.get(datetime).to('utc').timestamp`
on a timezone-aware display value (`MoodleEvent.set_start_datetime`'s
conversion). -/
def parseDisplay (d : ArrowTime) : Int :=
  (arrowTo d "utc").timestamp

/-! ### MoodleEvent -/

/-- Activity kind; fixes the concrete XML file and the
semantic-to-underlying field-name mapping (`event_keys`). -/
inductive Kind where
  | quiz
  | homework
deriving DecidableEq, Repr, Inhabited

/-- `event_keys['start']` of the subclass. -/
def startKey : Kind → String
  | .quiz => "timeopen"
  | .homework => "allowsubmissionsfromdate"

/-- `event_keys['close']` of the subclass. -/
def closeKey : Kind → String
  | .quiz => "timeclose"
  | .homework => "duedate"

/-- State of a `MoodleEvent` (`MoodleQuiz` / `MoodleHomework`):
the parsed activity tree (whose root is the `activity` element), the
`modified` flag, and the dynamically-assigned `rel_id` attribute
(absent until the course index assigns it). -/
structure MoodleEvent where
  kind : Kind
  modified : Bool
  activity : Element
  rel_id : Option Nat
deriving Inhabited

/-- `self.event`, i.e. `self.activity[0]`.  Records built by `init`
always have exactly one child. -/
def MoodleEvent.event (ev : MoodleEvent) : Element :=
  ev.activity.children.headD default

/-- `MoodleEvent.__init__` on an already-parsed tree: `modified` starts
false and a tree whose root does not have exactly one child raises. -/
def MoodleEvent.init (kind : Kind) (root : Element) : Except PyError MoodleEvent :=
  if root.children.length ≠ 1 then
    .error (.exception "An activity can only have one event.")
  else
    .ok ⟨kind, false, root, Option.none⟩

/-- `MoodleEvent.__getitem__`. -/
def MoodleEvent.getitem (ev : MoodleEvent) (k : String) : Except PyError PyVal :=
  if k = "id" then
    match lookupAttr ev.event.attrib k with
    | some s => .ok (.str s)
    | Option.none => .error (.keyError k)
  else if k = "moduleid" then
    match lookupAttr ev.activity.attrib k with
    | some s =>
      match pyParseInt s with
      | some n => .ok (.int n)
      | Option.none => .error (.valueError "invalid literal for int()")
    | Option.none => .error (.keyError k)
  else
    match findChild ev.event k with
    | Option.none => .error .attributeError
    | some c => .ok c.text

/-- `MoodleEvent.__setitem__`, as a state transformer: a raise leaves
the record exactly as it was. -/
def MoodleEvent.setitem (ev : MoodleEvent) (k : String) (v : PyVal) :
    MoodleEvent × Option PyError :=
  if k = "id" ∨ k = "moduleid" then (ev, some (.exception "Not allowed"))
  else
    match findChild ev.event k with
    | Option.none => (ev, some .attributeError)
    | some _ =>
      let newEvent := ev.event.withChildren (setTextOfChild ev.event.children k v)
      (⟨ev.kind, true,
        ev.activity.withChildren (newEvent :: ev.activity.children.drop 1),
        ev.rel_id⟩, Option.none)

/-- `MoodleEvent.set_start_datetime`. -/
def MoodleEvent.setStartDatetime (ev : MoodleEvent) (dt : ArrowTime) :
    MoodleEvent × Option PyError :=
  ev.setitem (startKey ev.kind) (.str (pyStrInt (arrowTo dt "utc").timestamp))

/-- `MoodleEvent.set_end_datetime`. -/
def MoodleEvent.setEndDatetime (ev : MoodleEvent) (dt : ArrowTime) :
    MoodleEvent × Option PyError :=
  ev.setitem (closeKey ev.kind) (.str (pyStrInt (arrowTo dt "utc").timestamp))

/-- `MoodleEvent._get_arrow`. -/
def MoodleEvent.getArrow (ev : MoodleEvent) (key : String) : Except PyError ArrowTime :=
  match findChild ev.event key with
  | Option.none => .error .attributeError
  | some c => arrowGetEpoch c.text montreal

/-- `MoodleEvent.get_start_timestamp`. -/
def MoodleEvent.getStartTimestamp (ev : MoodleEvent) : Except PyError Int :=
  (ev.getArrow (startKey ev.kind)).map ArrowTime.timestamp

/-- `MoodleEvent.get_end_timestamp`. -/
def MoodleEvent.getEndTimestamp (ev : MoodleEvent) : Except PyError Int :=
  (ev.getArrow (closeKey ev.kind)).map ArrowTime.timestamp

/-- Set the text of the first child of `e` tagged `k`
(`e.find(k).text = v`); a failed `find` raises `AttributeError`. -/
def setChildTextE (e : Element) (k : String) (v : PyVal) : Except PyError Element :=
  match findChild e k with
  | Option.none => .error .attributeError
  | some _ => .ok (e.withChildren (setTextOfChild e.children k v))

/-- Tree-mutation phase of `MoodleEvent._write_calendar` (everything
before `cal_tree.write`): the entry-count guard, then the in-place
timestamp/duration updates.  Note lines 76 and 82 of the source assign
the Python integer `0`, not `'0'`. -/
def writeCalendarTree (ev : MoodleEvent) (cal : Element) : Except PyError Element := do
  let n := cal.children.length
  if n > 2 ∨ n < 1 then throw (.exception "Unimplemented")
  else
    let s ← ev.getStartTimestamp
    let e0 := cal.children.headD default
    let e0 ← setChildTextE e0 "timestart" (.str (pyStrInt s))
    let e0 ← setChildTextE e0 "timeduration" (.int 0)
    if 1 < n then
      let en ← ev.getEndTimestamp
      let e0 ← setChildTextE e0 "timeduration" (.str (pyStrInt (en - s)))
      let e1 := cal.children.tail.headD default
      let e1 ← setChildTextE e1 "timeduration" (.int 0)
      let e1 ← setChildTextE e1 "timestart" (.str (pyStrInt en))
      pure (cal.withChildren (e0 :: e1 :: cal.children.drop 2))
    else
      pure (cal.withChildren (e0 :: cal.children.drop 1))

/-- `MoodleEvent._write_calendar` on the parsed calendar tree: the
first component is the content written to `calendar.xml`
(`Option.none` when the raise happens before `cal_tree.write`, leaving
the file untouched). -/
def syncCalendar (ev : MoodleEvent) (cal : Element) :
    Option String × Option PyError :=
  match writeCalendarTree ev cal with
  | .error e => (Option.none, some e)
  | .ok t =>
    match serializeFile t with
    | (out, err) => (some out, err)

/-- `_write_calendar` at the disk level: the resulting content of
`calendar.xml` given its prior content. -/
def syncCalendarDisk (ev : MoodleEvent) (cal : Element) (content : String) :
    String × Option PyError :=
  match syncCalendar ev cal with
  | (Option.none, e) => (content, e)
  | (some out, e) => (out, e)

/-- A file write performed by `MoodleEvent.write`. -/
inductive FsOp where
  | putActivityFile (content : String)
  | putCalendarFile (content : String)
deriving DecidableEq, Repr

/-- `MoodleEvent.write`: a no-op when `modified` is false, otherwise
serialize the activity tree to its path and synchronize the calendar.
Returns the record afterwards (the method assigns no attribute of
`self`, in particular it never clears `modified`), the file writes
performed, and the exception if one was raised. -/
def MoodleEvent.write (ev : MoodleEvent) (cal : Element) :
    MoodleEvent × List FsOp × Option PyError :=
  if ev.modified = false then (ev, [], Option.none)
  else
    match serializeFile ev.activity with
    | (actOut, some e) => (ev, [.putActivityFile actOut], some e)
    | (actOut, Option.none) =>
      match syncCalendar ev cal with
      | (Option.none, err) => (ev, [.putActivityFile actOut], err)
      | (some calOut, err) =>
        (ev, [.putActivityFile actOut, .putCalendarFile calOut], err)

/-! ### MoodleCourse -/

/-- Python `int(x)`. -/
def pyInt (v : PyVal) : Except PyError Int :=
  match v with
  | .str s =>
    match pyParseInt s with
    | some n => .ok n
    | Option.none => .error (.valueError "invalid literal for int()")
  | .int n => .ok n
  | .none => .error (.typeError "int() argument must not be None")

/-- Chained `e.find(k1).find(k2)...`; a `find` returning `None` makes
the next attribute access (or the subsequent iteration) raise. -/
def findChain (e : Element) : List String → Except PyError Element
  | [] => .ok e
  | k :: rest =>
    match findChild e k with
    | Option.none => .error .attributeError
    | some c => findChain c rest

/-- Python `seq.index(m)` scanning from position `i`. -/
def seqIndexAux (m : Int) : List Int → Nat → Option Nat
  | [], _ => Option.none
  | x :: xs, i => if x = m then some i else seqIndexAux m xs (i + 1)

/-- The sort key of `MoodleCourse._sort_activity_type`:
`self.activity_sequence.index(activity['moduleid'])`, with the
exceptions both lookups can raise. -/
def activityKey (seq : List Int) (ev : MoodleEvent) : Except PyError Nat := do
  let m ← (match ev.getitem "moduleid" with
           | .ok (.int n) => Except.ok n
           | .ok _ => Except.error (PyError.typeError "unexpected moduleid value")
           | .error e => Except.error e)
  match seqIndexAux m seq 0 with
  | some i => pure i
  | Option.none => throw (.valueError "x not in list")

/-- Total version of `activityKey`, used to state sortedness;
it agrees with `activityKey` whenever the latter succeeds. -/
def seqKeyN (seq : List Int) (ev : MoodleEvent) : Nat :=
  match activityKey seq ev with
  | .ok i => i
  | .error _ => seq.length

/-- Stable insertion into an already sorted (by key) list: the new
element goes after every element with a key less than or equal to its
own, as Python's stable `sorted` keeps earlier-listed elements first. -/
def insertKeyed {α : Type} (a : Nat × α) : List (Nat × α) → List (Nat × α)
  | [] => [a]
  | b :: l => if b.1 ≤ a.1 then b :: insertKeyed a l else a :: b :: l

def sortKeyedAux {α : Type} : List (Nat × α) → List (Nat × α) → List (Nat × α)
  | acc, [] => acc
  | acc, a :: l => sortKeyedAux (insertKeyed a acc) l

/-- Stable sort of key/value pairs by key; models Python's
`sorted(..., key=...)`, which is stable. -/
def sortKeyed {α : Type} (l : List (Nat × α)) : List (Nat × α) :=
  sortKeyedAux [] l

/-- `activity.rel_id = i`. -/
def MoodleEvent.withRelId (ev : MoodleEvent) (i : Nat) : MoodleEvent :=
  ⟨ev.kind, ev.modified, ev.activity, some i⟩

/-- The `enumerate` loop of `_sort_activity_type`: assign 1-based
`rel_id` along the sorted list (`s` is the number of items already
passed). -/
def assignRelIds : Nat → List (Nat × MoodleEvent) → List MoodleEvent
  | _, [] => []
  | s, p :: l => p.2.withRelId (s + 1) :: assignRelIds (s + 1) l

/-- `MoodleCourse._sort_activity_type`: sort one kind's records by the
position of their `moduleid` in the declared sequence (CPython's
`sorted` computes every key first, in list order, so a failing key
lookup raises before any comparison), then assign 1-based `rel_id`s. -/
def sortActivityType (seq : List Int) (acts : List MoodleEvent) :
    Except PyError (List MoodleEvent) := do
  let keyed ← acts.mapM (fun a => do
    let i ← activityKey seq a
    pure (i, a))
  pure (assignRelIds 0 (sortKeyed keyed))

/-- State of a loaded `MoodleCourse`: the declared module-id sequence
and one bucket of activity records per supported kind. -/
structure MoodleCourse where
  activity_sequence : List Int
  quizzes : List MoodleEvent
  homeworks : List MoodleEvent
deriving Inhabited

/-- `self.activities[clazz]`. -/
def MoodleCourse.activities (c : MoodleCourse) : Kind → List MoodleEvent
  | .quiz => c.quizzes
  | .homework => c.homeworks

/-- Element of `xs` at a non-negative position, `IndexError` outside
`[0, len)`. -/
def pyIndex {α : Type} (xs : List α) (j : Int) : Except PyError α :=
  if h : 0 ≤ j ∧ j < (xs.length : Int) then .ok (xs.get ⟨j.toNat, by omega⟩)
  else .error .indexError

/-- Python list subscript `xs[i]`: negative indices wrap around from
the end, and only a shifted index outside `[0, len)` raises
`IndexError`. -/
def pyListGet {α : Type} (xs : List α) (i : Int) : Except PyError α :=
  pyIndex xs (if i < 0 then i + xs.length else i)

/-- `MoodleCourse.get_activity_by_type_and_num`:
`self.activities[type][relative_number - 1]`. -/
def MoodleCourse.getActivityByTypeAndNum (c : MoodleCourse) (k : Kind) (n : Int) :
    Except PyError MoodleEvent :=
  pyListGet (c.activities k) (n - 1)

/-- `MoodleCourse._load_activity_sequence`. -/
def loadActivitySequence (backup : Element) : Except PyError (List Int) := do
  let acts ← findChain backup ["information", "contents", "activities"]
  acts.children.mapM (fun a =>
    match findChild a "moduleid" with
    | Option.none => throw PyError.attributeError
    | some c => pyInt c.text)

/-- `modname_to_class` as a partial kind lookup on the `modulename`
text. -/
def kindOfModulename : PyVal → Option Kind
  | .str "quiz" => some Kind.quiz
  | .str "assign" => some Kind.homework
  | _ => Option.none

/-- One iteration of the `_load_activites` loop: read `modulename` and
`directory`, skip unsupported kinds (`Option.none`), otherwise parse
the kind-specific XML file found at the directory (`fs` maps a
directory to its parsed activity tree; a missing file raises). -/
def loadOneActivity (fs : String → Option Element) (a : Element) :
    Except PyError (Option MoodleEvent) := do
  let mn ← (match findChild a "modulename" with
            | Option.none => Except.error PyError.attributeError
            | some c => Except.ok c.text)
  let dir ← (match findChild a "directory" with
             | Option.none => Except.error PyError.attributeError
             | some c => Except.ok c.text)
  match kindOfModulename mn with
  | Option.none => pure Option.none
  | some kind =>
    match dir with
    | .str d =>
      match fs d with
      | Option.none => throw (PyError.exception "FileNotFoundError")
      | some root => do
        let ev ← MoodleEvent.init kind root
        pure (some ev)
    | _ => throw (PyError.typeError "join() argument must be str")

/-- `MoodleCourse._load_activites` before sorting: the per-kind
buckets in discovery (manifest) order. -/
def loadActivityBuckets (fs : String → Option Element) (backup : Element) :
    Except PyError (List MoodleEvent × List MoodleEvent) := do
  let acts ← findChain backup ["information", "contents", "activities"]
  let evs ← acts.children.mapM (loadOneActivity fs)
  let evs := evs.filterMap id
  pure (evs.filter (fun e => e.kind == Kind.quiz),
        evs.filter (fun e => e.kind == Kind.homework))

/-- `MoodleCourse.__init__` / `_load_activities_and_sequence` on an
already-parsed `moodle_backup.xml` tree. -/
def loadCourse (fs : String → Option Element) (backup : Element) :
    Except PyError MoodleCourse := do
  let seq ← loadActivitySequence backup
  let bs ← loadActivityBuckets fs backup
  let qs ← sortActivityType seq bs.1
  let hs ← sortActivityType seq bs.2
  pure ⟨seq, qs, hs⟩

/-! ### Archive writer working-directory discipline -/

/-- Process-wide state touched by `MoodleCourse.write`. -/
structure Proc where
  cwd : String
deriving DecidableEq, Repr

/-- Working-directory behaviour of `MoodleCourse.write`: serialize the
activities (raises propagate before any `chdir`), then
`ogwd = os.getcwd(); os.chdir(self.path)`, pack the archive (the
outcome of `tarfile.open`/`add` is external I/O, injected as
`tarError`), and only on the success path `os.chdir(ogwd)` — there is
no `try/finally` in the source. -/
def courseWriteCwd (coursePath : String) (p : Proc)
    (activitiesError : Option PyError) (tarError : Option PyError) :
    Proc × Option PyError :=
  match activitiesError with
  | some e => (p, some e)
  | Option.none =>
    let ogwd := p.cwd
    let changed : Proc := ⟨coursePath⟩
    match tarError with
    | some e => (changed, some e)
    | Option.none => (⟨ogwd⟩, Option.none)

/-! ### Concrete fixtures used by witnesses and counterexamples -/

/-- Leaf element with string text. -/
def leafEl (tag txt : String) : Element := .mk tag [] (.str txt) [] .none

/-- A parsed `quiz.xml`: an `activity` root holding exactly one event
subtree with `timeopen`/`timeclose` fields. -/
def exQuizRoot : Element :=
  .mk "activity" [("id", "3"), ("moduleid", "7"), ("modulename", "quiz")] .none
    [.mk "quiz" [("id", "11")] .none
      [leafEl "timeopen" "1000", leafEl "timeclose" "1500", leafEl "name" "Quiz one"]
      .none]
    .none

/-- The record `MoodleEvent.init Kind.quiz exQuizRoot` yields. -/
def exQuiz : MoodleEvent := ⟨Kind.quiz, false, exQuizRoot, Option.none⟩

/-- `exQuiz` after a successful field write (its `modified` flag is
set). -/
def exQuizModified : MoodleEvent := (exQuiz.setitem "timeopen" (.str "2000")).1

/-- Calendar entry with `timestart`/`timeduration` children. -/
def calEntry (startTxt durTxt : String) : Element :=
  .mk "event" [] .none [leafEl "timestart" startTxt, leafEl "timeduration" durTxt] .none

def exCal0 : Element := .mk "events" [] .none [] .none

def exCal1 : Element := .mk "events" [] .none [calEntry "999" "5"] .none

def exCal2 : Element :=
  .mk "events" [] .none [calEntry "999" "5", calEntry "1200" "0"] .none

def exCal3 : Element :=
  .mk "events" [] .none
    [calEntry "1" "1", calEntry "2" "2", calEntry "3" "3"] .none

/-- Manifest entry (`information/contents/activities` child). -/
def manifestActivity (mid mname dir : String) : Element :=
  .mk "activity" [] .none
    [leafEl "moduleid" mid, leafEl "modulename" mname, leafEl "directory" dir] .none

/-- Manifest declaring the sequence `[101, 102, 103]`: two quizzes and
one unsupported activity kind. -/
def exBackup : Element :=
  .mk "moodle_backup" [] .none
    [.mk "information" [] .none
      [.mk "contents" [] .none
        [.mk "activities" [] .none
          [manifestActivity "101" "quiz" "activities/quiz_a",
           manifestActivity "102" "quiz" "activities/quiz_b",
           manifestActivity "103" "forum" "activities/forum_c"] .none]
        .none]
      .none]
    .none

/-- A `quiz.xml` tree whose `activity` root carries the given
`moduleid` attribute. -/
def quizFileRoot (mid openTxt closeTxt : String) : Element :=
  .mk "activity" [("moduleid", mid)] .none
    [.mk "quiz" [("id", "1")] .none
      [leafEl "timeopen" openTxt, leafEl "timeclose" closeTxt] .none]
    .none

/-- Unpacked-archive contents for `exBackup`: the first-discovered
quiz file carries module id `102`, the second `101`, so discovery
order is `[102, 101]` while the declared sequence orders `101` first. -/
def exFs : String → Option Element := fun d =>
  if d = "activities/quiz_a" then some (quizFileRoot "102" "1000" "1500")
  else if d = "activities/quiz_b" then some (quizFileRoot "101" "2000" "2500")
  else Option.none

/-- The course `loadCourse exFs exBackup` produces. -/
def exCourseOut : MoodleCourse :=
  match loadCourse exFs exBackup with
  | .ok c => c
  | .error _ => default

/-- One-quiz course for the ordinal-lookup counterexample. -/
def exCourse1 : MoodleCourse := ⟨[7], [exQuiz.withRelId 1], []⟩

/-! ## Supporting lemmas -/

/-- The fuel-based digit computation agrees with `Nat.digits`. -/
theorem natDigitsAux_eq_digits (f : Nat) :
    ∀ n : Nat, n ≤ f → natDigitsAux f n = Nat.digits 10 n := by
  induction f with
  | zero =>
    intro n hn
    interval_cases n
    simp [natDigitsAux]
  | succ f ih =>
    intro n hn
    match n with
    | 0 => simp [natDigitsAux]
    | m + 1 =>
      have hdiv : (m + 1) / 10 ≤ f := by
        have := Nat.div_lt_self (Nat.succ_pos m) (by norm_num : 1 < 10)
        omega
      have hstep : natDigitsAux (f + 1) (m + 1)
          = ((m + 1) % 10) :: natDigitsAux f ((m + 1) / 10) := rfl
      rw [hstep, ih _ hdiv]
      exact (Nat.digits_def' (by norm_num) (Nat.succ_pos m)).symm

theorem digitVal?_digitChar (d : Nat) (hd : d < 10) :
    digitVal? (digitChar d) = some d := by
  interval_cases d <;> decide

theorem parseNatAux_digitChars (D : List Nat) (hD : ∀ d ∈ D, d < 10) :
    ∀ acc : Nat, parseNatAux (D.map digitChar) acc
      = some (D.foldl (fun a d => 10 * a + d) acc) := by
  induction D with
  | nil => intro acc; rfl
  | cons d D ih =>
    intro acc
    have hd : d < 10 := hD d (List.mem_cons_self _ _)
    have hD' : ∀ x ∈ D, x < 10 := fun x hx => hD x (List.mem_cons_of_mem _ hx)
    simp only [List.map_cons, parseNatAux, digitVal?_digitChar d hd, List.foldl_cons]
    exact ih hD' _

theorem foldl_dec_eq_ofDigits (D : List Nat) :
    ∀ acc : Nat, D.foldl (fun a d => 10 * a + d) acc
      = acc * 10 ^ D.length + Nat.ofDigits 10 D.reverse := by
  induction D with
  | nil => intro acc; simp
  | cons d D ih =>
    intro acc
    rw [List.foldl_cons, ih, List.reverse_cons, Nat.ofDigits_append]
    simp only [Nat.ofDigits_singleton, List.length_reverse, List.length_cons, pow_succ]
    ring

theorem pyParseNat_natToDec (n : Nat) : pyParseNat (natToDec n) = some n := by
  by_cases h0 : n = 0
  · subst h0; decide
  · have hdig : natDigitsAux n n = Nat.digits 10 n := natDigitsAux_eq_digits n n le_rfl
    have hne : Nat.digits 10 n ≠ [] := Nat.digits_ne_nil_iff_ne_zero.mpr h0
    have hlt : ∀ d ∈ (Nat.digits 10 n).reverse, d < 10 := by
      intro d hd
      exact Nat.digits_lt_base (by norm_num) (List.mem_reverse.mp hd)
    have hmapped : ((Nat.digits 10 n).map digitChar).reverse
        = (Nat.digits 10 n).reverse.map digitChar :=
      (List.map_reverse digitChar (Nat.digits 10 n)).symm
    have hdata : (String.mk (((Nat.digits 10 n).map digitChar).reverse)).data
        = (Nat.digits 10 n).reverse.map digitChar := hmapped
    have hne2 : (Nat.digits 10 n).reverse.map digitChar ≠ [] := by
      simp [hne]
    unfold natToDec pyParseNat
    rw [if_neg h0, hdig, hdata, if_neg hne2,
      parseNatAux_digitChars _ hlt 0, foldl_dec_eq_ofDigits]
    simp [Nat.ofDigits_digits]

/-- Every character a positive decimal rendering produces is a digit
character. -/
theorem natToDec_mem_digitChar (n : Nat) :
    ∀ c ∈ (natToDec n).data, ∃ d : Nat, d < 10 ∧ c = digitChar d := by
  intro c hc
  by_cases h0 : n = 0
  · subst h0
    refine ⟨0, by norm_num, ?_⟩
    simpa [natToDec] using hc
  · unfold natToDec at hc
    rw [if_neg h0] at hc
    have : c ∈ ((natDigitsAux n n).map digitChar).reverse := hc
    rw [List.mem_reverse, List.mem_map] at this
    obtain ⟨d, hd, rfl⟩ := this
    refine ⟨d, ?_, rfl⟩
    rw [natDigitsAux_eq_digits n n le_rfl] at hd
    exact Nat.digits_lt_base (by norm_num) hd

theorem natToDec_data_ne_nil (n : Nat) : (natToDec n).data ≠ [] := by
  by_cases h0 : n = 0
  · subst h0; decide
  · unfold natToDec
    rw [if_neg h0]
    have hne : Nat.digits 10 n ≠ [] := Nat.digits_ne_nil_iff_ne_zero.mpr h0
    rw [← natDigitsAux_eq_digits n n le_rfl] at hne
    simpa using hne

theorem digitChar_ne_dash (d : Nat) (hd : d < 10) : digitChar d ≠ '-' := by
  interval_cases d <;> decide

/-- Decimal round trip for integers: parsing Python's `str(i)` yields
`i` back. -/
theorem pyParseInt_pyStrInt (i : Int) : pyParseInt (pyStrInt i) = some i := by
  by_cases hneg : i < 0
  · have hdata : (pyStrInt i).data = '-' :: (natToDec i.natAbs).data := by
      unfold pyStrInt
      rw [if_pos hneg]
      rfl
    have htail : (natToDec i.natAbs).data ≠ [] := natToDec_data_ne_nil _
    have hnat : pyParseNat (natToDec i.natAbs) = some i.natAbs := pyParseNat_natToDec _
    unfold pyParseNat at hnat
    rw [if_neg htail] at hnat
    unfold pyParseInt
    rw [hdata, if_neg (List.cons_ne_nil _ _),
      if_pos (show ('-' :: (natToDec i.natAbs).data).headD ' ' = '-' by simp),
      show ('-' :: (natToDec i.natAbs).data).tail = (natToDec i.natAbs).data from rfl,
      if_neg htail, hnat]
    simp only [Option.map_some']
    congr 1
    omega
  · have hnn : 0 ≤ i := le_of_not_lt hneg
    have hdata : (pyStrInt i).data = (natToDec i.toNat).data := by
      unfold pyStrInt
      rw [if_neg hneg]
    have hne : (natToDec i.toNat).data ≠ [] := natToDec_data_ne_nil _
    obtain ⟨c, cs, hsplit⟩ := List.exists_cons_of_ne_nil hne
    have hcdig : ∃ d : Nat, d < 10 ∧ c = digitChar d := by
      apply natToDec_mem_digitChar i.toNat
      rw [hsplit]
      exact List.mem_cons_self _ _
    obtain ⟨d, hd, rfl⟩ := hcdig
    have hnat : pyParseNat (natToDec i.toNat) = some i.toNat := pyParseNat_natToDec _
    unfold pyParseNat at hnat
    rw [if_neg hne, hsplit] at hnat
    unfold pyParseInt
    rw [hdata, hsplit, if_neg (List.cons_ne_nil _ _),
      if_neg (show ¬(digitChar d :: cs).headD ' ' = '-' by
        simpa using digitChar_ne_dash d hd),
      hnat]
    simp only [Option.map_some']
    congr 1
    omega

/-- Comparison used by the keyed sort. -/
abbrev keyLE {α : Type} (x y : Nat × α) : Prop := x.1 ≤ y.1

theorem insertKeyed_perm {α : Type} (a : Nat × α) (l : List (Nat × α)) :
    (insertKeyed a l).Perm (a :: l) := by
  induction l with
  | nil => rfl
  | cons b l ih =>
    by_cases hb : b.1 ≤ a.1
    · simp only [insertKeyed, if_pos hb]
      exact (ih.cons b).trans (List.Perm.swap a b l)
    · simp only [insertKeyed, if_neg hb]
      exact List.Perm.refl _

theorem insertKeyed_pairwise {α : Type} (a : Nat × α) (l : List (Nat × α))
    (h : l.Pairwise keyLE) : (insertKeyed a l).Pairwise keyLE := by
  induction l with
  | nil => simp [insertKeyed, List.pairwise_cons]
  | cons b l ih =>
    rw [List.pairwise_cons] at h
    obtain ⟨hb, hl⟩ := h
    by_cases hba : b.1 ≤ a.1
    · simp only [insertKeyed, if_pos hba]
      rw [List.pairwise_cons]
      refine ⟨?_, ih hl⟩
      intro x hx
      rcases List.mem_cons.mp ((insertKeyed_perm a l).subset hx) with rfl | hxl
      · exact hba
      · exact hb x hxl
    · simp only [insertKeyed, if_neg hba]
      rw [List.pairwise_cons]
      constructor
      · intro x hx
        rcases List.mem_cons.mp hx with rfl | hxl
        · exact le_of_not_le hba
        · exact le_trans (le_of_not_le hba) (hb x hxl)
      · rw [List.pairwise_cons]
        exact ⟨hb, hl⟩

theorem sortKeyedAux_perm {α : Type} (l : List (Nat × α)) :
    ∀ acc : List (Nat × α), (sortKeyedAux acc l).Perm (acc ++ l) := by
  induction l with
  | nil => intro acc; simp [sortKeyedAux]
  | cons a l ih =>
    intro acc
    have h1 : (sortKeyedAux (insertKeyed a acc) l).Perm ((insertKeyed a acc) ++ l) :=
      ih _
    have h2 : ((insertKeyed a acc) ++ l).Perm ((a :: acc) ++ l) :=
      (insertKeyed_perm a acc).append_right l
    have h3 : ((a :: acc) ++ l).Perm (acc ++ a :: l) := List.perm_middle.symm
    exact (h1.trans h2).trans h3

theorem sortKeyedAux_pairwise {α : Type} (l : List (Nat × α)) :
    ∀ acc : List (Nat × α), acc.Pairwise keyLE →
      (sortKeyedAux acc l).Pairwise keyLE := by
  induction l with
  | nil => intro acc h; exact h
  | cons a l ih => intro acc h; exact ih _ (insertKeyed_pairwise a acc h)

theorem sortKeyed_perm {α : Type} (l : List (Nat × α)) : (sortKeyed l).Perm l :=
  sortKeyedAux_perm l []

theorem sortKeyed_pairwise {α : Type} (l : List (Nat × α)) :
    (sortKeyed l).Pairwise keyLE :=
  sortKeyedAux_pairwise l [] (List.Pairwise.nil)

/-- A successful monadic map sends every output element back to some
input element that produced it. -/
theorem mapM_ok_mem {α β : Type} (f : α → Except PyError β) :
    ∀ (l : List α) (out : List β), l.mapM f = .ok out →
      ∀ b ∈ out, ∃ a ∈ l, f a = .ok b := by
  intro l
  induction l with
  | nil =>
    intro out h b hb
    simp only [List.mapM_nil] at h
    cases h
    simp at hb
  | cons a l ih =>
    intro out h b hb
    rw [List.mapM_cons] at h
    cases hfa : f a with
    | error e => rw [hfa] at h; simp [Bind.bind, Except.bind] at h
    | ok x =>
      cases hml : l.mapM f with
      | error e =>
        rw [hfa, hml] at h
        simp [Bind.bind, Except.bind, Pure.pure, Except.pure] at h
      | ok xs =>
        rw [hfa, hml] at h
        simp only [Bind.bind, Except.bind, Pure.pure, Except.pure,
          Except.ok.injEq] at h
        rw [← h] at hb
        rcases List.mem_cons.mp hb with rfl | hmem
        · exact ⟨a, List.mem_cons_self _ _, hfa⟩
        · obtain ⟨a', ha', hfa'⟩ := ih xs hml b hmem
          exact ⟨a', List.mem_cons_of_mem _ ha', hfa'⟩

theorem assignRelIds_length (l : List (Nat × MoodleEvent)) :
    ∀ s : Nat, (assignRelIds s l).length = l.length := by
  induction l with
  | nil => intro s; rfl
  | cons p l ih => intro s; simp [assignRelIds, ih]

theorem assignRelIds_get (l : List (Nat × MoodleEvent)) :
    ∀ (s j : Nat) (h : j < (assignRelIds s l).length) (h' : j < l.length),
      (assignRelIds s l).get ⟨j, h⟩ = ((l.get ⟨j, h'⟩).2).withRelId (s + j + 1) := by
  induction l with
  | nil => intro s j h h'; simp at h'
  | cons p l ih =>
    intro s j h h'
    match j with
    | 0 => rfl
    | j + 1 =>
      have hlen : j < (assignRelIds (s + 1) l).length := by
        simpa [assignRelIds, assignRelIds_length] using h
      have hlen' : j < l.length := by simpa using h'
      have := ih (s + 1) j hlen hlen'
      have harith : s + 1 + j + 1 = s + (j + 1) + 1 := by omega
      simpa [assignRelIds, harith] using this

theorem seqKeyN_withRelId (seq : List Int) (ev : MoodleEvent) (i : Nat) :
    seqKeyN seq (ev.withRelId i) = seqKeyN seq ev := rfl

/-- Every key/record pair a successful key computation produces
carries the key of its own record. -/
theorem mapM_keyed_fact (seq : List Int) (acts : List MoodleEvent)
    (keyed : List (Nat × MoodleEvent))
    (h : acts.mapM (fun a => do
          let i ← activityKey seq a
          pure (i, a)) = .ok keyed) :
    ∀ p ∈ keyed, activityKey seq p.2 = .ok p.1 := by
  intro p hp
  obtain ⟨a, _, hfa⟩ := mapM_ok_mem _ acts keyed h p hp
  cases hk : activityKey seq a with
  | error e => rw [hk] at hfa; simp [Bind.bind, Except.bind] at hfa
  | ok i =>
    rw [hk] at hfa
    simp only [Bind.bind, Except.bind, Pure.pure, Except.pure, Except.ok.injEq] at hfa
    rw [← hfa]
    exact hk

/-- Main lemma for `_sort_activity_type`: a successful sort yields a
list ordered by the records' positions in the declared sequence, with
`rel_id` assigned as the 1-based position. -/
theorem sortActivityType_ok (seq : List Int) (acts out : List MoodleEvent)
    (h : sortActivityType seq acts = .ok out) :
    (∀ (i j : Nat) (hi : i < out.length) (hj : j < out.length), i ≤ j →
        seqKeyN seq (out.get ⟨i, hi⟩) ≤ seqKeyN seq (out.get ⟨j, hj⟩))
  ∧ (∀ (j : Nat) (hj : j < out.length), (out.get ⟨j, hj⟩).rel_id = some (j + 1)) := by
  unfold sortActivityType at h
  cases hm : acts.mapM (fun a => do
      let i ← activityKey seq a
      pure (i, a)) with
  | error e => rw [hm] at h; simp [Bind.bind, Except.bind] at h
  | ok keyed =>
    rw [hm] at h
    simp only [Bind.bind, Except.bind, Pure.pure, Except.pure, Except.ok.injEq] at h
    have hout : out = assignRelIds 0 (sortKeyed keyed) := h.symm
    subst hout
    have hsort : (sortKeyed keyed).Pairwise keyLE := sortKeyed_pairwise keyed
    have hfact : ∀ p ∈ sortKeyed keyed, activityKey seq p.2 = .ok p.1 := by
      intro p hp
      exact mapM_keyed_fact seq acts keyed hm p ((sortKeyed_perm keyed).subset hp)
    have hkey : ∀ (j : Nat) (hj : j < (sortKeyed keyed).length),
        seqKeyN seq ((sortKeyed keyed).get ⟨j, hj⟩).2
          = ((sortKeyed keyed).get ⟨j, hj⟩).1 := by
      intro j hj
      have := hfact _ (List.get_mem (sortKeyed keyed) j hj)
      unfold seqKeyN
      rw [this]
    have hlen : ∀ j, j < (assignRelIds 0 (sortKeyed keyed)).length →
        j < (sortKeyed keyed).length := by
      intro j hj
      rwa [assignRelIds_length] at hj
    constructor
    · intro i j hi hj hij
      have hi' := hlen i hi
      have hj' := hlen j hj
      rw [assignRelIds_get _ 0 i hi hi', assignRelIds_get _ 0 j hj hj',
        seqKeyN_withRelId, seqKeyN_withRelId, hkey i hi', hkey j hj']
      rcases Nat.lt_or_ge i j with hlt | hge
      · have := List.pairwise_iff_get.mp hsort ⟨i, hi'⟩ ⟨j, hj'⟩ hlt
        exact this
      · have : i = j := le_antisymm hij hge
        subst this
        exact le_refl _
    · intro j hj
      have hj' := hlen j hj
      rw [assignRelIds_get _ 0 j hj hj']
      show some (0 + j + 1) = some (j + 1)
      congr 1
      omega

/-- The `write` method assigns no attribute of the record: its state
after the call is its state before (in particular `modified` is never
cleared). -/
theorem write_fst (ev : MoodleEvent) (cal : Element) : (ev.write cal).1 = ev := by
  unfold MoodleEvent.write
  by_cases hm : ev.modified = false
  · rw [if_pos hm]
  · rw [if_neg hm]
    rcases hser : serializeFile ev.activity with ⟨actOut, err⟩
    cases err with
    | some e => rfl
    | none =>
      rcases hsync : syncCalendar ev cal with ⟨o, e2⟩
      cases o <;> rfl

theorem pyIndex_pos {α : Type} (xs : List α) (j : Int) (h0 : 0 ≤ j)
    (h1 : j < (xs.length : Int)) :
    pyIndex xs j = .ok (xs.get ⟨j.toNat, by omega⟩) :=
  dif_pos ⟨h0, h1⟩

theorem pyIndex_neg {α : Type} (xs : List α) (j : Int)
    (h : ¬(0 ≤ j ∧ j < (xs.length : Int))) :
    pyIndex xs j = .error .indexError :=
  dif_neg h

/-! ## Claim theorems -/

/-- C1, code_bug: at the failing inputs, `_write_calendar` with a
single-entry calendar and start epoch 1000 serializes the entry as
`timestart=1000` but with an EMPTY `timeduration` element (the source
assigns the Python integer `0` to the text node and the XML serializer
skips falsy text), and with a two-entry calendar (start 1000, close
1500) the first entry gets `timestart=1000`, `timeduration=500` while
the second gets `timestart=1500` and again an empty `timeduration` —
not the `timeduration=0` the claim requires of the rewritten file. -/
theorem c1_calendar_sync_writes_empty_timeduration :
    syncCalendar exQuiz exCal1 =
      (some ("<?xml version='1.0' encoding='UTF-8'?>\n<events><event><timestart>1000</timestart><timeduration></timeduration></event></events>"),
       Option.none)
  ∧ syncCalendar exQuiz exCal2 =
      (some ("<?xml version='1.0' encoding='UTF-8'?>\n<events><event><timestart>1000</timestart><timeduration>500</timeduration></event><event><timestart>1500</timestart><timeduration></timeduration></event></events>"),
       Option.none) := by
  constructor <;> decide

/-- C2, counterexample: for a record whose `modified` flag is set, the
second `write()` call (with no mutation in between) is not a no-op —
it performs file writes again (both the activity file and the
calendar), because `write` never clears `modified`. -/
theorem c2_second_write_repeats_serialization :
    (((exQuizModified.write exCal1).1).write exCal1).2.1 ≠ []
  ∧ ((((exQuizModified.write exCal1).1).write exCal1).2.1).length = 2 := by
  constructor <;> decide

/-- C2, amended: `write()` never mutates the record, so a second call
with no intervening mutation performs exactly the same serialization
and calendar rewrite as the first; it is a no-op precisely when
`modified` is false, in which case the first call was a no-op too. -/
theorem c2_amended_write_is_stateless_and_repeats (ev : MoodleEvent) (cal : Element) :
    (ev.write cal).1 = ev
  ∧ ((ev.write cal).1).write cal = ev.write cal
  ∧ (ev.modified = false → ev.write cal = (ev, [], Option.none)) := by
  refine ⟨write_fst ev cal, ?_, ?_⟩
  · rw [write_fst ev cal]
  · intro h
    unfold MoodleEvent.write
    rw [if_pos h]

/-- C2, witness: for an unmodified record both calls are no-ops. -/
theorem c2_amended_witness :
    exQuiz.write exCal1 = (exQuiz, [], Option.none) :=
  (c2_amended_write_is_stateless_and_repeats exQuiz exCal1).2.2 rfl

/-- C3, counterexample: on a course whose quiz bucket has one record,
ordinal 0 — outside `[1, 1]` — does not raise `OutOfRangeError`; Python
negative indexing makes `bucket[0 - 1]` return the bucket's last
record. -/
theorem c3_ordinal_zero_returns_record :
    MoodleCourse.getActivityByTypeAndNum exCourse1 Kind.quiz 0
      = .ok (exQuiz.withRelId 1) := rfl

/-- C3, amended: ordinals in `[1, len]` return the record at that
1-based position; ordinals above `len` or below `1 - len` fail with
`IndexError` (the spec's `OutOfRangeError`); ordinals in `[1 - len, 0]`
do not fail — they wrap around Python-style and return the record at
0-based position `ordinal - 1 + len`. -/
theorem c3_amended_ordinal_lookup (c : MoodleCourse) (k : Kind) (n : Int) :
    (∀ (h1 : 1 ≤ n) (h2 : n ≤ ((c.activities k).length : Int)),
        c.getActivityByTypeAndNum k n
          = .ok ((c.activities k).get ⟨(n - 1).toNat, by omega⟩))
  ∧ (((c.activities k).length : Int) < n ∨ n < 1 - ((c.activities k).length : Int) →
        c.getActivityByTypeAndNum k n = .error .indexError)
  ∧ (∀ (h3 : 1 - ((c.activities k).length : Int) ≤ n) (h4 : n ≤ 0),
        c.getActivityByTypeAndNum k n
          = .ok ((c.activities k).get
              ⟨(n - 1 + ((c.activities k).length : Int)).toNat, by omega⟩)) := by
  refine ⟨?_, ?_, ?_⟩
  · intro h1 h2
    unfold MoodleCourse.getActivityByTypeAndNum pyListGet
    rw [if_neg (show ¬(n - 1 < 0) by omega)]
    exact pyIndex_pos _ _ (by omega) (by omega)
  · intro h3
    unfold MoodleCourse.getActivityByTypeAndNum pyListGet
    rcases h3 with hgt | hlt
    · rw [if_neg (show ¬(n - 1 < 0) by omega)]
      exact pyIndex_neg _ _ (by omega)
    · rw [if_pos (show n - 1 < 0 by omega)]
      exact pyIndex_neg _ _ (by omega)
  · intro h3 h4
    unfold MoodleCourse.getActivityByTypeAndNum pyListGet
    rw [if_pos (show n - 1 < 0 by omega)]
    exact pyIndex_pos _ _ (by omega) (by omega)

/-- C3, witness: ordinal 1 on a one-record bucket returns that record. -/
theorem c3_amended_witness :
    MoodleCourse.getActivityByTypeAndNum exCourse1 Kind.quiz 1
      = .ok (exQuiz.withRelId 1) := by
  have h := (c3_amended_ordinal_lookup exCourse1 Kind.quiz 1).1 (by decide) (by decide)
  exact h.trans rfl

/-- C4, code_bug: when packing raises after the working-directory
change (`tarfile.open`/`add` failing), `MoodleCourse.write` leaves the
process in the course directory — `os.chdir(ogwd)` is only on the
success path, with no try/finally — contradicting the claim that the
prior working directory is restored on every exit path. -/
theorem c4_cwd_not_restored_on_error :
    courseWriteCwd "/course" ⟨"/home/user"⟩ Option.none
        (some (.exception "tar failure"))
      = (⟨"/course"⟩, some (.exception "tar failure"))
  ∧ ("/course" : String) ≠ "/home/user"
  ∧ courseWriteCwd "/course" ⟨"/home/user"⟩ Option.none Option.none
      = (⟨"/home/user"⟩, Option.none) := by
  refine ⟨rfl, by decide, rfl⟩

/-- C5, confirmed: setting `id` or `moduleid` always raises
`Exception('Not allowed')` (the spec's `ImmutableFieldError`) and the
record — fields and `modified` flag alike — is returned unchanged. -/
theorem c5_immutable_fields_raise_and_leave_record (ev : MoodleEvent) (k : String)
    (v : PyVal) (h : k = "id" ∨ k = "moduleid") :
    ev.setitem k v = (ev, some (.exception "Not allowed")) := by
  unfold MoodleEvent.setitem
  rw [if_pos h]

/-- C5, witness. -/
theorem c5_witness :
    exQuiz.setitem "id" (.str "99") = (exQuiz, some (.exception "Not allowed"))
  ∧ exQuiz.setitem "moduleid" (.int 4) = (exQuiz, some (.exception "Not allowed")) :=
  ⟨c5_immutable_fields_raise_and_leave_record exQuiz "id" (.str "99") (Or.inl rfl),
   c5_immutable_fields_raise_and_leave_record exQuiz "moduleid" (.int 4) (Or.inr rfl)⟩

/-- C6, confirmed: encoding any epoch integer for presentation (store
as decimal text, resolve through the fixed civil timezone) and parsing
the display value back (it carries its zone; convert to UTC and take
the timestamp) yields the same epoch. -/
theorem c6_timestamp_roundtrip (e : Int) :
    (toDisplay e).map parseDisplay = .ok e := by
  unfold toDisplay arrowGetEpoch
  show Except.map parseDisplay
      (match pyParseInt (pyStrInt e) with
       | some n => Except.ok ⟨n, montreal⟩
       | Option.none => Except.error (PyError.valueError "ParserError")) = Except.ok e
  rw [pyParseInt_pyStrInt]
  rfl

/-- C7, confirmed: a calendar with 0 or 3+ entries makes the
synchronizer raise `Exception('Unimplemented')` (the spec's
`StructuralError`) before `cal_tree.write` is reached, so nothing is
written and the calendar file keeps its prior content. -/
theorem c7_bad_calendar_shape_fails_before_write (ev : MoodleEvent) (cal : Element)
    (content : String)
    (h : cal.children.length < 1 ∨ 2 < cal.children.length) :
    writeCalendarTree ev cal = .error (.exception "Unimplemented")
  ∧ syncCalendar ev cal = (Option.none, some (.exception "Unimplemented"))
  ∧ syncCalendarDisk ev cal content = (content, some (.exception "Unimplemented")) := by
  have htree : writeCalendarTree ev cal = .error (.exception "Unimplemented") := by
    simp only [writeCalendarTree]
    rw [if_pos (show cal.children.length > 2 ∨ cal.children.length < 1 by omega)]
    rfl
  have hsync : syncCalendar ev cal = (Option.none, some (.exception "Unimplemented")) := by
    unfold syncCalendar
    rw [htree]
  refine ⟨htree, hsync, ?_⟩
  unfold syncCalendarDisk
  rw [hsync]

/-- C7, witness: a 0-entry and a 3-entry calendar both fail and leave
the prior file content in place. -/
theorem c7_witness :
    writeCalendarTree exQuiz exCal0 = .error (.exception "Unimplemented")
  ∧ syncCalendarDisk exQuiz exCal0 "prior content"
      = ("prior content", some (.exception "Unimplemented"))
  ∧ writeCalendarTree exQuiz exCal3 = .error (.exception "Unimplemented") :=
  ⟨(c7_bad_calendar_shape_fails_before_write exQuiz exCal0 "prior content"
      (by decide)).1,
   (c7_bad_calendar_shape_fails_before_write exQuiz exCal0 "prior content"
      (by decide)).2.2,
   (c7_bad_calendar_shape_fails_before_write exQuiz exCal3 "x" (by decide)).1⟩

/-- C8, confirmed: after a successful course load, every bucket is
ordered by the position of each record's `moduleid` in the
manifest-declared sequence (non-decreasing sequence keys along the
bucket) and `rel_id` is the 1-based position within the bucket. -/
theorem c8_load_buckets_sorted_with_rel_ids (fs : String → Option Element)
    (backup : Element) (course : MoodleCourse)
    (h : loadCourse fs backup = .ok course) (k : Kind) :
    (∀ (i j : Nat) (hi : i < (course.activities k).length)
        (hj : j < (course.activities k).length), i ≤ j →
        seqKeyN course.activity_sequence ((course.activities k).get ⟨i, hi⟩)
          ≤ seqKeyN course.activity_sequence ((course.activities k).get ⟨j, hj⟩))
  ∧ (∀ (j : Nat) (hj : j < (course.activities k).length),
        ((course.activities k).get ⟨j, hj⟩).rel_id = some (j + 1)) := by
  unfold loadCourse at h
  cases hseq : loadActivitySequence backup with
  | error e => rw [hseq] at h; simp [Bind.bind, Except.bind] at h
  | ok seq =>
    rw [hseq] at h
    simp only [Bind.bind, Except.bind] at h
    cases hbk : loadActivityBuckets fs backup with
    | error e => rw [hbk] at h; simp at h
    | ok bs =>
      rw [hbk] at h
      simp only [Except.bind] at h
      cases hq : sortActivityType seq bs.1 with
      | error e => rw [hq] at h; simp at h
      | ok qs =>
        rw [hq] at h
        simp only [Except.bind] at h
        cases hh : sortActivityType seq bs.2 with
        | error e => rw [hh] at h; simp at h
        | ok hws =>
          rw [hh] at h
          simp only [Except.bind, Pure.pure, Except.pure, Except.ok.injEq] at h
          rw [← h]
          cases k with
          | quiz => exact sortActivityType_ok seq bs.1 qs hq
          | homework => exact sortActivityType_ok seq bs.2 hws hh

/-- C8, witness: the spec's example — declared sequence
`[101, 102, 103]`, quiz files discovered with module ids `[102, 101]` —
loads into a quiz bucket ordered `[101, 102]` with `rel_id` 1 and 2. -/
theorem c8_witness :
    loadCourse exFs exBackup = .ok exCourseOut
  ∧ exCourseOut.activity_sequence = [101, 102, 103]
  ∧ exCourseOut.quizzes.map (fun ev => lookupAttr ev.activity.attrib "moduleid")
      = [some "101", some "102"]
  ∧ exCourseOut.quizzes.map MoodleEvent.rel_id = [some 1, some 2]
  ∧ (∀ (j : Nat) (hj : j < (exCourseOut.activities Kind.quiz).length),
        ((exCourseOut.activities Kind.quiz).get ⟨j, hj⟩).rel_id = some (j + 1)) := by
  refine ⟨rfl, by decide, by decide, by decide, ?_⟩
  exact (c8_load_buckets_sorted_with_rel_ids exFs exBackup exCourseOut rfl Kind.quiz).2

/-- C9, confirmed: for a field key other than `id`/`moduleid` with no
matching child element, both read and write raise `AttributeError`
(the spec's `FieldNotFoundError`), and a failed write leaves the
record unchanged. -/
theorem c9_missing_field_raises (ev : MoodleEvent) (k : String) (v : PyVal)
    (h1 : k ≠ "id") (h2 : k ≠ "moduleid")
    (h3 : findChild ev.event k = Option.none) :
    ev.getitem k = .error .attributeError
  ∧ ev.setitem k v = (ev, some .attributeError) := by
  constructor
  · unfold MoodleEvent.getitem
    rw [if_neg h1, if_neg h2, h3]
  · unfold MoodleEvent.setitem
    rw [if_neg (show ¬(k = "id" ∨ k = "moduleid") by tauto), h3]

/-- C9, witness: `timelimit` is absent from the example quiz. -/
theorem c9_witness :
    exQuiz.getitem "timelimit" = .error .attributeError
  ∧ exQuiz.setitem "timelimit" (.str "60") = (exQuiz, some .attributeError) :=
  c9_missing_field_raises exQuiz "timelimit" (.str "60")
    (by decide) (by decide) rfl

/-- C10, confirmed: `modified` is false at construction, any
successful field write sets it true (also when the new value equals
the old one, which the second conjunct covers since it puts no
condition on the values), a failed write preserves it, and `write()`
never changes it — in particular it is never reset to false. -/
theorem c10_modified_monotone :
    (∀ (k : Kind) (root : Element) (ev : MoodleEvent),
        MoodleEvent.init k root = .ok ev → ev.modified = false)
  ∧ (∀ (ev : MoodleEvent) (k : String) (v : PyVal) (ev' : MoodleEvent)
        (e : Option PyError), ev.setitem k v = (ev', e) →
        (e = Option.none → ev'.modified = true)
      ∧ (ev.modified = true → ev'.modified = true))
  ∧ (∀ (ev : MoodleEvent) (cal : Element),
        ((ev.write cal).1).modified = ev.modified) := by
  refine ⟨?_, ?_, ?_⟩
  · intro k root ev h
    unfold MoodleEvent.init at h
    split at h
    · cases h
    · simp only [Except.ok.injEq] at h
      rw [← h]
  · intro ev k v ev' e h
    unfold MoodleEvent.setitem at h
    split at h
    · simp only [Prod.mk.injEq] at h
      obtain ⟨hev, he⟩ := h
      constructor
      · intro hnone
        rw [← he] at hnone
        cases hnone
      · intro hm
        rw [← hev]
        exact hm
    · split at h
      · simp only [Prod.mk.injEq] at h
        obtain ⟨hev, he⟩ := h
        constructor
        · intro hnone
          rw [← he] at hnone
          cases hnone
        · intro hm
          rw [← hev]
          exact hm
      · simp only [Prod.mk.injEq] at h
        obtain ⟨hev, he⟩ := h
        constructor
        · intro _
          rw [← hev]
        · intro _
          rw [← hev]
  · intro ev cal
    rw [write_fst ev cal]

/-- C10, witness. -/
theorem c10_witness :
    exQuiz.modified = false
  ∧ (exQuiz.setitem "timeopen" (.str "1000")).1.modified = true
  ∧ ((exQuizModified.write exCal1).1).modified = true := by
  refine ⟨?_, ?_, ?_⟩
  · exact c10_modified_monotone.1 Kind.quiz exQuizRoot exQuiz rfl
  · exact ((c10_modified_monotone.2.1 exQuiz "timeopen" (.str "1000")
      (exQuiz.setitem "timeopen" (.str "1000")).1
      (exQuiz.setitem "timeopen" (.str "1000")).2 rfl).1) rfl
  · exact (c10_modified_monotone.2.2 exQuizModified exCal1).trans rfl

end Moodle
